import Mathlib

/-!
Shallow embedding of the dynamic schema extraction and normalization engine of
src/app.py (students_gui_hkgc): the value-coercion policy (format_value and
float coercion), the period order key (get_year_sort_key), the column-name
pattern matchers (the re.compile patterns at lines 170, 216-221, 265 and 277),
the record field extractors (extract_semester_gpa_data,
extract_academic_year_data, extract_yearly_poverty_level_data) and the radar
assembler (create_radar_chart with its inner normalize_value and
get_display_value).

Conventions of the embedding:
- A spreadsheet cell value is a PVal: the missing marker None, the float NaN,
  a finite number (modelled as an exact rational), or a string.
- Python functions that can raise return Except/Option; all others are total
  Lean functions.
- Character-level operations (strip, lower, isdigit, the float literal
  parser) are modelled over the ASCII/CJK alphabet actually appearing in this
  program's data; this is noted at each definition.
-/

namespace StudentsApp

/-- Whitespace characters removed by str.strip (ASCII subset, which covers the
whitespace appearing in this program's data). -/
def isWS (c : Char) : Bool :=
  c = ' ' || c = '\t' || c = '\n' || c = '\r' || c = '\x0b' || c = '\x0c'

/-- ASCII decimal digit, the characters matched by the regex class \d and
accepted by str.isdigit on this program's data. -/
def isDig (c : Char) : Bool := '0' ≤ c && c ≤ '9'

/-- Lower-casing of one character, as str.lower acts on the ASCII letters
(characters outside A..Z, in particular CJK characters and digits, are kept). -/
def lowerChar (c : Char) : Char :=
  if 'A' ≤ c && c ≤ 'Z' then Char.ofNat (c.toNat + 32) else c

/-- str.lower over a character list. -/
def lowerStr (l : List Char) : List Char := l.map lowerChar

/-- Drops trailing whitespace characters. -/
def dropTrailingWS : List Char → List Char
  | [] => []
  | c :: rest =>
    let r := dropTrailingWS rest
    if r.isEmpty && isWS c then [] else c :: r

/-- str.strip: leading and trailing whitespace removed. -/
def pyStrip (l : List Char) : List Char := dropTrailingWS (l.dropWhile isWS)

/-- Base-10 value of a digit string, the value computed by int() on an
all-digit string. -/
def natVal (l : List Char) : ℕ := l.foldl (fun a c => a * 10 + (c.toNat - 48)) 0

/-- Python str.isdigit on one character: true for the decimal digits, but
also for digit-typed characters outside the decimal category — superscripts
and the like — on which int() raises ValueError.  The superscripts ¹²³ stand
for that second class here.  (Non-ASCII decimal digits, which isdigit and
int() both accept, behave like the ASCII ones and are not distinguished.) -/
def pyIsDigit (c : Char) : Bool := isDig c || c = '¹' || c = '²' || c = '³'

/-- str.isdigit on a string: nonempty and all digit-typed characters. -/
def isDigitsStr (s : String) : Bool := !s.data.isEmpty && s.data.all pyIsDigit

/-- int() applied to an isdigit-true string: the base-10 value when every
character is a decimal digit, and a ValueError (None here) otherwise — e.g.
int("²") raises although "²".isdigit() is true. -/
def pyIntOpt (s : String) : Option ℕ :=
  if !s.data.isEmpty && s.data.all isDig then some (natVal s.data) else none

/-- Rational value of an integer part, a fractional digit value and a count
of fractional digits, as a float literal denotes it. -/
def ratOfParts (ip fp : ℕ) (k : ℕ) : ℚ := (ip : ℚ) + (fp : ℚ) / (10 : ℚ) ^ k

/-- Unsigned part of a Python float literal: digits, or digits '.' digits with
at least one digit on one side ("3", "3.", ".5", "3.5").  Exponent forms and
the words inf/nan do not occur in this program's data and are not modelled. -/
def parseUnsigned (l : List Char) : Option ℚ :=
  let ip := l.takeWhile isDig
  let rest := l.dropWhile isDig
  if rest.isEmpty then (if ip.isEmpty then none else some (natVal ip))
  else if rest.head? = some '.' then
    let fp := rest.tail
    if fp.all isDig && !(ip.isEmpty && fp.isEmpty) then
      some (ratOfParts (natVal ip) (natVal fp) fp.length)
    else none
  else none

/-- Python float() on a stripped character list: optional sign then the
unsigned literal. -/
def parseFloatChars (l : List Char) : Option ℚ :=
  if l.head? = some '+' then parseUnsigned l.tail
  else if l.head? = some '-' then (parseUnsigned l.tail).map (fun x => -x)
  else parseUnsigned l

/-- A raw spreadsheet cell value as the extractors receive it: the missing
marker None, the float NaN, a finite number, or a string. -/
inductive PVal where
  | pnull : PVal
  | pnan : PVal
  | pnum (q : ℚ) : PVal
  | pstr (s : String) : PVal
deriving DecidableEq, Repr

/-- Decidable equality for Except results, used to evaluate the embedded
functions on concrete inputs. -/
instance {e a : Type} [DecidableEq e] [DecidableEq a] : DecidableEq (Except e a) := fun x y =>
  match x, y with
  | .error a1, .error a2 =>
    if h : a1 = a2 then .isTrue (congrArg Except.error h)
    else .isFalse (fun he => h (Except.error.inj he))
  | .ok a1, .ok a2 =>
    if h : a1 = a2 then .isTrue (congrArg Except.ok h)
    else .isFalse (fun he => h (Except.ok.inj he))
  | .error _, .ok _ => .isFalse (fun he => Except.noConfusion he)
  | .ok _, .error _ => .isFalse (fun he => Except.noConfusion he)

/-- pd.isna, which is true exactly on the missing marker and NaN (the separate
`value is None` checks in the source are subsumed by it). -/
def isna : PVal → Bool
  | .pnull => true
  | .pnan => true
  | _ => false

/-- Decimal digit character, codepoint 48 + d for d < 10. -/
def digitChar (d : ℕ) : Char := Char.ofNat (48 + d)

/-- Decimal digits of a natural number, most significant first, with explicit
fuel (the fuel n + 1 always suffices since n < 10 ^ (n + 1)). -/
def natCharsAux : ℕ → ℕ → List Char → List Char
  | 0, _, acc => acc
  | fuel + 1, n, acc =>
    if n < 10 then digitChar n :: acc
    else natCharsAux fuel (n / 10) (digitChar (n % 10) :: acc)

/-- Decimal digits of a natural number, most significant first. -/
def natChars (n : ℕ) : List Char := natCharsAux (n + 1) n []

/-- str() of a finite numeric cell.  Python renders a float as an optional
minus sign followed by a decimal numeral; the claims only inspect that such a
rendering is nonblank and is not one of the reserved tokens, so the fractional
part is rendered here with a fixed six digits of precision. -/
def ratStr (q : ℚ) : String :=
  let n := q.num.natAbs
  String.mk ((if q.num < 0 then ['-'] else []) ++
    natChars (n / q.den) ++ '.' :: natChars ((n % q.den) * 10 ^ 6 / q.den))

/-- str(value): "None" for the missing marker, "nan" for NaN, the decimal
rendering for numbers, the string itself for strings. -/
def pyStr : PVal → String
  | .pnull => "None"
  | .pnan => "nan"
  | .pnum q => ratStr q
  | .pstr s => s

/-- float(value) as an Option: None and unparseable strings are failures
(TypeError/ValueError, caught at every call site); finite numbers coerce to
themselves; a string is stripped then read as a float literal.  Every call
site filters NaN out beforehand via pd.isna/pd.notna, so the NaN case never
feeds a further computation and is folded into the failure case. -/
def pyFloat : PVal → Option ℚ
  | .pnull => none
  | .pnan => none
  | .pnum q => some q
  | .pstr s => parseFloatChars (pyStrip s.data)

/-- format_value (src/app.py lines 150-159): missing/NaN values, strings that
strip to nothing and the stripped-lowered tokens "nan"/"none" display as the
sentinel, every other value displays as its original str() form. -/
def format_value (value : PVal) : String :=
  if isna value then "无"
  else
    let s := pyStrip (pyStr value).data
    if s.isEmpty || lowerStr s = "nan".data || lowerStr s = "none".data then "无"
    else pyStr value

/-- Lookup in chinese_to_num_map = {一:1, 二:2, ..., 十:10} (src/app.py line
161), unrolled as the dict .get. -/
def chinese_to_num_map_get (y : String) : Option ℕ :=
  if y = "一" then some 1 else if y = "二" then some 2 else if y = "三" then some 3
  else if y = "四" then some 4 else if y = "五" then some 5 else if y = "六" then some 6
  else if y = "七" then some 7 else if y = "八" then some 8 else if y = "九" then some 9
  else if y = "十" then some 10 else none

/-- Removal of every occurrence of the two-character word 学年, scanning left
to right without overlap, as str.replace does. -/
def removeYearWord : List Char → List Char
  | [] => []
  | [c] => [c]
  | a :: b :: rest =>
    if a = '学' && b = '年' then removeYearWord rest
    else a :: removeYearWord (b :: rest)

/-- str(x).replace("第", "").replace("学年", "") of src/app.py line 164:
removing the single character 第 is a filter, then the word 学年 is removed. -/
def stripPeriodWrap (s : String) : String :=
  String.mk (removeYearWord (s.data.filter (fun c => c ≠ '第')))

/-- get_year_sort_key (src/app.py lines 162-165): strip the 第/学年 wrapping,
then chinese_to_num_map.get(year_str, int(year_str) if year_str.isdigit()
else 999).  Python evaluates the .get default eagerly, before the lookup: on
an isdigit-true string that is not all decimal digits (such as "²") the
guarded int() still raises ValueError — the error case — even when the key
would have been found in the table. -/
def get_year_sort_key (year_str_input : String) : Except Unit ℕ :=
  let year_str := stripPeriodWrap year_str_input
  match (if isDigitsStr year_str then
          match pyIntOpt year_str with
          | some n => Except.ok n
          | none => Except.error ()
        else Except.ok 999 : Except Unit ℕ) with
  | .error e => .error e
  | .ok dflt => .ok ((chinese_to_num_map_get year_str).getD dflt)

/-!
Column-name pattern matchers.  Every pattern in the source is re.match of
第([class]+)literal...: the literal prefix 第, a nonempty greedy capture over a
character class, then a literal.  Since the literal begins with 学 (or, for
the psychological pattern, with 心 after 学年), a character never in any of
the classes, the greedy capture never backtracks: it is exactly the maximal
run of class characters, and the literal must follow it; re.match allows
arbitrary trailing text.
-/

/-- One capture-and-literal step: the input starts with 第, then a nonempty
maximal run of class characters, then the literal; returns the captured run
and the text after the literal. -/
def capMatch (cls : Char → Bool) (lit : List Char) : List Char → Option (List Char × List Char)
  | [] => none
  | c :: rest =>
    if c = '第' then
      let run := rest.takeWhile cls
      let rem := rest.dropWhile cls
      if !run.isEmpty && lit.isPrefixOf rem then some (run, rem.drop lit.length) else none
    else none

/-- Character class of the semester-GPA pattern (src/app.py line 170):
[一二三四五六七八九十\d], where the raw string contains a single backslash so
\d is the decimal-digit class. -/
def gpaNumCls (c : Char) : Bool :=
  c = '一' || c = '二' || c = '三' || c = '四' || c = '五' || c = '六' ||
  c = '七' || c = '八' || c = '九' || c = '十' || isDig c

/-- Character class of the academic-year patterns (src/app.py lines 216-221,
245, 265): the raw string r'...[一二三四五六七八\\d]+...' contains a doubled
backslash, so the regex class holds the CJK numerals 一..八 plus the literal
characters \ and d — not the digit class, and not 九 or 十. -/
def yearNumCls (c : Char) : Bool :=
  c = '一' || c = '二' || c = '三' || c = '四' || c = '五' || c = '六' ||
  c = '七' || c = '八' || c = '\\' || c = 'd'

/-- Character class of the psychological-level pattern (src/app.py line 277):
一..十 plus the literal characters \ and d (same doubled backslash). -/
def psychNumCls (c : Char) : Bool :=
  c = '一' || c = '二' || c = '三' || c = '四' || c = '五' || c = '六' ||
  c = '七' || c = '八' || c = '九' || c = '十' || c = '\\' || c = 'd'

/-- re.match of 第([一二三四五六七八九十\d]+)学期绩点 against a column name,
returning the captured period numeral. -/
def gpa_pattern_match (column : String) : Option String :=
  (capMatch gpaNumCls "学期绩点".data column.data).map (fun p => String.mk p.1)

/-- re.match of 第([一二三四五六七八\\d]+)学年SUFFIX against a column name for
one of the academic-year patterns (suffix 德育, 智育, 体测成绩, 体测评级,
附加分, 综测总分, 困难等级), returning the captured period numeral. -/
def year_field_match (suffix : String) (column : String) : Option String :=
  (capMatch yearNumCls ("学年" ++ suffix).data column.data).map (fun p => String.mk p.1)

/-- re.match of 第([一二三四五六七八\\d]+)学年困难等级 (src/app.py line 265). -/
def poverty_pattern_match (column : String) : Option String :=
  year_field_match "困难等级" column

/-- re.match of 第([一二三四五六七八九十\\d]+)学年心理[评测]*等级 (src/app.py
line 277): after the captured numeral and 学年心理, a greedy run over {评, 测}
and then the literal 等级 (greedy is exact since 等 is not in {评, 测}). -/
def psych_pattern_match (column : String) : Option String :=
  match capMatch psychNumCls "学年心理".data column.data with
  | some (run, rest) =>
    if "等级".data.isPrefixOf (rest.dropWhile (fun c => c = '评' || c = '测')) then
      some (String.mk run)
    else none
  | none => none

/-- A student record as the extractors see it: the Series index (column
names) in order, each paired with its raw cell value. -/
abbrev Record := List (String × PVal)

/-- One row of the gpa_data list built by extract_semester_gpa_data. -/
structure GpaEntry where
  semester : String
  gpa : ℚ
  sort_key : ℕ
deriving DecidableEq, Repr

/-- The loop body of extract_semester_gpa_data for one column: a column whose
name matches the semester-GPA pattern and whose value is pd.notna and float()
coercible contributes one entry (sort key from the captured numeral);
ValueError/TypeError from float() skips the column.  get_year_sort_key is
called inside the same try block, so a ValueError escaping it would likewise
skip the column — a capture of this pattern never produces one, proved in
gpa_capture_sort_key_ok. -/
def gpaScanEntry (cv : String × PVal) : Option GpaEntry :=
  match gpa_pattern_match cv.1 with
  | none => none
  | some cap =>
    if isna cv.2 then none
    else match pyFloat cv.2 with
      | none => none
      | some x =>
        match get_year_sort_key cap with
        | .error _ => none
        | .ok sort_key => some ⟨"第" ++ cap ++ "学期", x, sort_key⟩

/-- One pass of extract_semester_gpa_data over all columns. -/
def gpaScan (student_data : Record) : List GpaEntry :=
  student_data.filterMap gpaScanEntry

/-- Insertion of one entry into a list, after every entry whose key is
strictly smaller: together with insertion from the right this realizes
Python's stable list.sort on the sort_key. -/
def insertBySortKey (x : GpaEntry) : List GpaEntry → List GpaEntry
  | [] => [x]
  | y :: ys => if y.sort_key < x.sort_key then y :: insertBySortKey x ys else x :: y :: ys

/-- gpa_data.sort(key=lambda x: x['sort_key']): a stable sort ascending by
sort_key. -/
def stableSortBySortKey : List GpaEntry → List GpaEntry
  | [] => []
  | x :: xs => insertBySortKey x (stableSortBySortKey xs)

/-- extract_semester_gpa_data (src/app.py lines 167-210).  The second scan
over student_data.keys() runs only when the first scan over the index found
nothing; for a Series the index and the keys are the same sequence, so that
scan repeats the first one verbatim (and again finds nothing).  The collected
entries are then sorted stably by sort key. -/
def extract_semester_gpa_data (student_data : Record) : List GpaEntry :=
  let gpa_data := gpaScan student_data
  let gpa_data2 := if gpa_data.isEmpty then gpa_data ++ gpaScan student_data else gpa_data
  stableSortBySortKey gpa_data2

/-- The year_patterns dict keys in their insertion order (src/app.py lines
215-222). -/
def year_patterns : List String := ["德育", "智育", "体测成绩", "体测评级", "附加分", "综测总分"]

/-- Assignment d[k] = v on an insertion-ordered dict: an existing key keeps
its position, a new key is appended. -/
def dictInsert (k : String) (v : α) : List (String × α) → List (String × α)
  | [] => [(k, v)]
  | kv :: rest => if kv.1 = k then (k, v) :: rest else kv :: dictInsert k v rest

/-- d.get(k) on an insertion-ordered dict (keys are unique by construction,
so the first matching entry is the entry). -/
def dictGet (d : List (String × α)) (k : String) : Option α :=
  match d with
  | [] => none
  | kv :: rest => if kv.1 = k then some kv.2 else dictGet rest k

/-- The two dict statements of src/app.py lines 229-231: create the year's
inner dict when absent, then assign the field. -/
def setYearField (acc : List (String × List (String × PVal))) (y f : String) (v : PVal) :
    List (String × List (String × PVal)) :=
  dictInsert y (dictInsert f v ((dictGet acc y).getD [])) acc

/-- extract_academic_year_data (src/app.py lines 212-232): for every column,
every year pattern that matches it stores the raw cell value (no coercion, no
skipping) under the captured year and the field name. -/
def extract_academic_year_data (student_data : Record) :
    List (String × List (String × PVal)) :=
  student_data.foldl (fun acc cv =>
    year_patterns.foldl (fun acc2 f =>
      match year_field_match f cv.1 with
      | none => acc2
      | some y => setYearField acc2 y f cv.2) acc) []

/-- extract_yearly_poverty_level_data (src/app.py lines 262-272): a flat dict
from captured year to the raw cell value. -/
def extract_yearly_poverty_level_data (student_data : Record) : List (String × PVal) :=
  student_data.foldl (fun acc cv =>
    match poverty_pattern_match cv.1 with
    | none => acc
    | some y => dictInsert y cv.2 acc) []

/-- The five radar fields in the canonical order of the loop at src/app.py
line 326. -/
def radar_fields : List String := ["德育", "智育", "体测成绩", "附加分", "综测总分"]

/-- normalize_value (src/app.py lines 315-319): missing values normalize to
0; float() failure (ValueError/TypeError) is caught and normalizes to 0; a
coercible value is scaled by (value - min) / (max - min) * 100 and clamped to
[0, 100] — except that a degenerate range max = min makes the division raise
ZeroDivisionError, which the except clause does not catch (the error case). -/
def normalize_value (value : PVal) (min_val max_val : ℚ) : Except Unit ℚ :=
  if isna value then .ok 0
  else match pyFloat value with
    | none => .ok 0
    | some x =>
      if max_val - min_val = 0 then .error ()
      else .ok (max 0 (min 100 ((x - min_val) / (max_val - min_val) * 100)))

/-- get_display_value (src/app.py lines 320-323): the float value, or 0 when
missing or not coercible. -/
def get_display_value (value : PVal) : ℚ :=
  if isna value then 0 else (pyFloat value).getD 0

/-- The gating check of src/app.py lines 288-301: the year's 综测总分 is
absent (dict .get gives None), pd.isna, or not float() coercible. -/
def comprehensive_score_invalid (year_data : List (String × PVal)) : Bool :=
  match dictGet year_data "综测总分" with
  | none => true
  | some v => isna v || (pyFloat v).isNone

/-- The radar_items loop of src/app.py lines 325-329 over a field list: each
field present in the year dict contributes (field, normalized, display);
a ZeroDivisionError from normalize_value propagates. -/
def radarItemsGo (cfg : String → ℚ × ℚ) (year_data : List (String × PVal)) :
    List String → Except Unit (List (String × ℚ × ℚ))
  | [] => .ok []
  | f :: fs =>
    match dictGet year_data f with
    | none => radarItemsGo cfg year_data fs
    | some v =>
      match normalize_value v (cfg f).1 (cfg f).2 with
      | .error e => .error e
      | .ok nv =>
        match radarItemsGo cfg year_data fs with
        | .error e => .error e
        | .ok rest => .ok ((f, nv, get_display_value v) :: rest)

/-- create_radar_chart (src/app.py lines 286-344), with the opaque plotly
figure dropped: None when the 综测总分 gate fails or no radar item was
collected, otherwise the radar_items series.  cfg is the live
normalization-range configuration read on each call (the session dict
st.session_state.user_normalization_params, merged with the (0, 100) fallback
of normalization_params.get). -/
def create_radar_chart (cfg : String → ℚ × ℚ) (year_data : List (String × PVal)) :
    Except Unit (Option (List (String × ℚ × ℚ))) :=
  if comprehensive_score_invalid year_data then .ok none
  else
    match radarItemsGo cfg year_data radar_fields with
    | .error e => .error e
    | .ok radar_items => if radar_items.isEmpty then .ok none else .ok (some radar_items)

/-- The default normalization ranges of src/app.py lines 10-17, extended by
the (0, 100) fallback of normalization_params.get for any other field. -/
def user_normalization_params : String → ℚ × ℚ := fun f =>
  if f = "德育" then (12, 15)
  else if f = "智育" then (0, 105)
  else if f = "体测成绩" then (0, 120)
  else if f = "附加分" then (-1, 10)
  else if f = "综测总分" then (0, 110)
  else (0, 100)

/-!
Theorems.
-/

/-- C1: the claim states that every column 第 + numeral + unit + suffix is
classified with the numeral captured verbatim, for CJK numerals up to 十 and
for ASCII digit strings alike.  This holds for the semester-GPA pattern, whose
raw string contains the single-backslash digit class \d, but fails for every
学年-based pattern: there the raw-string source holds a doubled backslash, so
the regex class contains the two literal characters \ and d instead of the
digits (and also stops at 八), and columns such as 第3学年德育 or 第九学年德育
do not match — while the accidental 第d学年德育 does. -/
theorem pattern_match_digit_and_high_numeral_eval :
    gpa_pattern_match "第3学期绩点" = some "3"
    ∧ gpa_pattern_match "第九学期绩点" = some "九"
    ∧ gpa_pattern_match "第十学期绩点" = some "十"
    ∧ year_field_match "德育" "第一学年德育" = some "一"
    ∧ year_field_match "德育" "第3学年德育" = none
    ∧ year_field_match "德育" "第九学年德育" = none
    ∧ year_field_match "综测总分" "第3学年综测总分" = none
    ∧ poverty_pattern_match "第3学年困难等级" = none
    ∧ psych_pattern_match "第3学年心理等级" = none
    ∧ psych_pattern_match "第九学年心理评测等级" = some "九"
    ∧ year_field_match "德育" "第d学年德育" = some "d" := by
  decide

/-- C3: normalize_value is claimed never to propagate a division fault on a
degenerate range min = max, but the source guards only against
ValueError/TypeError; a coercible value with max - min = 0 reaches the
division and raises ZeroDivisionError (the .error case), while only a
non-coercible value is saved by the earlier guards. -/
theorem normalize_value_degenerate_range_raises :
    normalize_value (.pnum 84) 50 50 = .error ()
    ∧ normalize_value (.pstr "x") 50 50 = .ok 0 := by
  constructor
  · simp [normalize_value, isna, pyFloat]
  · have h : parseFloatChars (pyStrip "x".data) = none := by decide
    simp [normalize_value, isna, pyFloat, h]

theorem takeWhile_chars (p : Char → Bool) (l : List Char) :
    ∀ a ∈ l.takeWhile p, p a = true := by
  induction l with
  | nil => intro a ha; simp at ha
  | cons c t ih =>
    intro a ha
    rw [List.takeWhile_cons] at ha
    by_cases hc : p c = true
    · rw [if_pos hc] at ha
      rcases List.mem_cons.mp ha with rfl | ha2
      · exact hc
      · exact ih a ha2
    · rw [if_neg hc] at ha
      simp at ha

theorem capMatch_capture_cls (cls : Char → Bool) (lit s : List Char)
    (pr : List Char × List Char) (h : capMatch cls lit s = some pr) :
    ∀ ch ∈ pr.1, cls ch = true := by
  cases s with
  | nil => exact absurd h (by simp [capMatch])
  | cons c rest =>
    simp only [capMatch] at h
    by_cases hdi : c = '第'
    · rw [if_pos hdi] at h
      by_cases hcond : (!(rest.takeWhile cls).isEmpty
          && lit.isPrefixOf (rest.dropWhile cls)) = true
      · rw [if_pos hcond] at h
        injection h with h
        subst h
        intro ch hch
        exact takeWhile_chars cls rest ch hch
      · rw [if_neg hcond] at h
        exact absurd h (by simp)
    · rw [if_neg hdi] at h
      exact absurd h (by simp)

theorem gpaNumCls_props (c : Char) (h : gpaNumCls c = true) :
    c ≠ '第' ∧ c ≠ '学' ∧ (pyIsDigit c = true → isDig c = true) := by
  refine ⟨?_, ?_, ?_⟩
  · rintro rfl; exact absurd h (by decide)
  · rintro rfl; exact absurd h (by decide)
  · intro hp
    unfold pyIsDigit at hp
    rw [Bool.or_eq_true, Bool.or_eq_true, Bool.or_eq_true] at hp
    rcases hp with ((hp | hp) | hp) | hp
    · exact hp
    · have hc := of_decide_eq_true hp
      subst hc
      exact absurd h (by decide)
    · have hc := of_decide_eq_true hp
      subst hc
      exact absurd h (by decide)
    · have hc := of_decide_eq_true hp
      subst hc
      exact absurd h (by decide)

theorem removeYearWord_of_no_xue (l : List Char) (h : ∀ c ∈ l, c ≠ '学') :
    removeYearWord l = l := by
  induction l with
  | nil => rfl
  | cons c tl ih =>
    have hc : c ≠ '学' := h c (by simp)
    cases tl with
    | nil => rfl
    | cons b r2 =>
      have hcond : ¬((c = '学' && b = '年') = true) := by
        simp only [Bool.and_eq_true, decide_eq_true_eq]
        rintro ⟨rfl, -⟩
        exact hc rfl
      simp only [removeYearWord]
      rw [if_neg hcond]
      rw [ih (fun x hx => h x (by simp [hx]))]

theorem stripPeriodWrap_of_cls (s : String) (h : ∀ c ∈ s.data, gpaNumCls c = true) :
    stripPeriodWrap s = s := by
  unfold stripPeriodWrap
  have hfil : s.data.filter (fun c => c ≠ '第') = s.data := by
    rw [List.filter_eq_self]
    intro a ha
    simp only [decide_eq_true_eq]
    exact (gpaNumCls_props a (h a ha)).1
  rw [hfil, removeYearWord_of_no_xue s.data (fun c hc => (gpaNumCls_props c (h c hc)).2.1)]

theorem get_year_sort_key_ok_of_cls (s : String) (h : ∀ c ∈ s.data, gpaNumCls c = true) :
    ∃ k, get_year_sort_key s = .ok k := by
  have hstrip := stripPeriodWrap_of_cls s h
  by_cases hd : isDigitsStr s = true
  · have hdig : ∀ c ∈ s.data, isDig c = true := by
      intro c hc
      have h2 : pyIsDigit c = true := by
        unfold isDigitsStr at hd
        rw [Bool.and_eq_true] at hd
        exact (List.all_eq_true.mp hd.2) c hc
      exact (gpaNumCls_props c (h c hc)).2.2 h2
    have hne : (!s.data.isEmpty) = true := by
      unfold isDigitsStr at hd
      rw [Bool.and_eq_true] at hd
      exact hd.1
    have hint : pyIntOpt s = some (natVal s.data) := by
      unfold pyIntOpt
      rw [if_pos (by
        rw [Bool.and_eq_true]
        exact ⟨hne, List.all_eq_true.mpr hdig⟩)]
    refine ⟨(chinese_to_num_map_get s).getD (natVal s.data), ?_⟩
    simp only [get_year_sort_key, hstrip, hd, if_true, hint]
  · have hdf : isDigitsStr s = false := by
      cases hv : isDigitsStr s with
      | false => rfl
      | true => exact absurd hv hd
    refine ⟨(chinese_to_num_map_get s).getD 999, ?_⟩
    simp only [get_year_sort_key, hstrip, hdf, Bool.false_eq_true, if_false]

theorem gpa_capture_sort_key_ok (c cap : String) (h : gpa_pattern_match c = some cap) :
    ∃ k, get_year_sort_key cap = .ok k := by
  unfold gpa_pattern_match at h
  cases hcm : capMatch gpaNumCls "学期绩点".data c.data with
  | none => rw [hcm] at h; exact absurd h (by simp)
  | some pr =>
    rw [hcm] at h
    injection h with h
    subst h
    apply get_year_sort_key_ok_of_cls
    intro ch hch
    exact capMatch_capture_cls gpaNumCls "学期绩点".data c.data pr hcm ch hch

/-- C2: the claim says get_year_sort_key is total — every string returns an
integer, never raises, garbage maps to 999.  The code evaluates the .get
default eagerly, and Python's str.isdigit is also true for digit-typed
characters outside the decimal category (superscripts such as ², modelled by
the ¹²³ class of pyIsDigit), on which int() raises ValueError: the function
raises on "²" (and even on "第²学年") instead of returning 999, while
table numerals, all-decimal strings and ordinary garbage behave as the
claim says. -/
theorem get_year_sort_key_eager_default_raises :
    get_year_sort_key "²" = .error ()
    ∧ get_year_sort_key "第²学年" = .error ()
    ∧ get_year_sort_key "十一" = .ok 999
    ∧ get_year_sort_key "第一学年" = .ok 1
    ∧ get_year_sort_key "12" = .ok 12
    ∧ get_year_sort_key "第3学年" = .ok 3
    ∧ get_year_sort_key "abc" = .ok 999 := by decide

theorem normalize_value_pnum (mn mx x : ℚ) (hden : mx - mn ≠ 0) :
    normalize_value (.pnum x) mn mx = .ok (max 0 (min 100 ((x - mn) / (mx - mn) * 100))) := by
  simp only [normalize_value, isna, pyFloat]
  rw [if_neg hden]
  simp

/-- C6: with a nondegenerate range min < max, normalize_value computes the
clamped affine rescaling clamp(((value - min) / (max - min)) * 100, 0, 100):
it is monotone in the value, sends values at or below min to 0 and at or
above max to 100, and sends any missing or non-coercible value to 0; in
particular with the 智育 range (0, 105) the raw value 84 normalizes to 80. -/
theorem normalize_value_formula_spec :
    (∀ mn mx : ℚ, mn < mx →
      (∀ x : ℚ, normalize_value (.pnum x) mn mx =
        .ok (max 0 (min 100 ((x - mn) / (mx - mn) * 100))))
      ∧ (∀ x₁ x₂ q₁ q₂ : ℚ, x₁ ≤ x₂ →
          normalize_value (.pnum x₁) mn mx = .ok q₁ →
          normalize_value (.pnum x₂) mn mx = .ok q₂ → q₁ ≤ q₂)
      ∧ (∀ x : ℚ, x ≤ mn → normalize_value (.pnum x) mn mx = .ok 0)
      ∧ (∀ x : ℚ, mx ≤ x → normalize_value (.pnum x) mn mx = .ok 100)
      ∧ (∀ v : PVal, isna v = true ∨ pyFloat v = none → normalize_value v mn mx = .ok 0))
    ∧ normalize_value (.pnum 84) 0 105 = .ok 80 := by
  constructor
  · intro mn mx hlt
    have hpos : 0 < mx - mn := sub_pos.mpr hlt
    have hden : mx - mn ≠ 0 := ne_of_gt hpos
    refine ⟨fun x => normalize_value_pnum mn mx x hden, ?_, ?_, ?_, ?_⟩
    · intro x₁ x₂ q₁ q₂ hx h1 h2
      rw [normalize_value_pnum mn mx x₁ hden] at h1
      rw [normalize_value_pnum mn mx x₂ hden] at h2
      injection h1 with h1
      injection h2 with h2
      subst h1
      subst h2
      have hmono : (x₁ - mn) / (mx - mn) * 100 ≤ (x₂ - mn) / (mx - mn) * 100 := by
        have h1 : x₁ - mn ≤ x₂ - mn := by linarith
        have h2 : (x₁ - mn) / (mx - mn) ≤ (x₂ - mn) / (mx - mn) :=
          (div_le_div_right hpos).mpr h1
        exact mul_le_mul_of_nonneg_right h2 (by norm_num)
      exact max_le_max (le_refl 0) (min_le_min (le_refl 100) hmono)
    · intro x hx
      rw [normalize_value_pnum mn mx x hden]
      have ht : (x - mn) / (mx - mn) * 100 ≤ 0 := by
        apply mul_nonpos_of_nonpos_of_nonneg
        · exact div_nonpos_of_nonpos_of_nonneg (by linarith) (le_of_lt hpos)
        · norm_num
      rw [min_eq_right (le_trans ht (by norm_num)), max_eq_left ht]
    · intro x hx
      rw [normalize_value_pnum mn mx x hden]
      have ht : (100 : ℚ) ≤ (x - mn) / (mx - mn) * 100 := by
        have h1 : (1 : ℚ) ≤ (x - mn) / (mx - mn) := by
          rw [le_div_iff hpos]
          linarith
        nlinarith
      rw [min_eq_left ht, max_eq_right (by norm_num : (0 : ℚ) ≤ 100)]
    · intro v hv
      rcases hv with hv | hv
      · simp [normalize_value, hv]
      · simp only [normalize_value, hv]
        split <;> rfl
  · have hden : (105 : ℚ) - 0 ≠ 0 := by norm_num
    rw [normalize_value_pnum 0 105 84 hden]
    have hval : max (0 : ℚ) (min 100 ((84 - 0) / (105 - 0) * 100)) = 80 := by
      norm_num [min_def, max_def]
    rw [hval]

/-- Witness for the C6 theorem at the range (0, 105) with the clamped value
200 and the non-coercible value "". -/
theorem normalize_value_formula_spec_witness :
    (0 : ℚ) < 105
    ∧ normalize_value (.pnum 200) 0 105 = .ok 100
    ∧ normalize_value (.pstr "") 0 105 = .ok 0 := by
  have hlt : (0 : ℚ) < 105 := by norm_num
  refine ⟨hlt, ?_, ?_⟩
  · exact (normalize_value_formula_spec.1 0 105 hlt).2.2.2.1 200 (by norm_num)
  · exact (normalize_value_formula_spec.1 0 105 hlt).2.2.2.2 (.pstr "") (Or.inr (by decide))

theorem format_value_of_isna (v : PVal) (h : isna v = true) : format_value v = "无" := by
  simp [format_value, h]

theorem format_value_sentinel (v : PVal) (h : isna v = false)
    (hc : (pyStrip (pyStr v).data).isEmpty = true
      ∨ lowerStr (pyStrip (pyStr v).data) = "nan".data
      ∨ lowerStr (pyStrip (pyStr v).data) = "none".data) :
    format_value v = "无" := by
  simp only [format_value, h]
  rcases hc with hc | hc | hc <;> simp [hc]

theorem format_value_keeps (v : PVal) (h : isna v = false)
    (h1 : (pyStrip (pyStr v).data).isEmpty = false)
    (h2 : lowerStr (pyStrip (pyStr v).data) ≠ "nan".data)
    (h3 : lowerStr (pyStrip (pyStr v).data) ≠ "none".data) :
    format_value v = pyStr v := by
  simp only [format_value, h]
  simp [h1, h2, h3]

theorem isDig_digitChar (d : ℕ) (h : d < 10) : isDig (digitChar d) = true := by
  interval_cases d <;> decide

theorem natCharsAux_head (fuel : ℕ) :
    ∀ (n : ℕ) (acc : List Char), fuel ≠ 0 → n < 10 ^ fuel →
      ∃ c t, natCharsAux fuel n acc = c :: t ∧ isDig c = true := by
  induction fuel with
  | zero => intro n acc h; exact absurd rfl h
  | succ fuel ih =>
    intro n acc _ hn
    by_cases hlt : n < 10
    · exact ⟨digitChar n, acc, by simp [natCharsAux, hlt], isDig_digitChar n hlt⟩
    · have hf : fuel ≠ 0 := by
        rintro rfl
        simp at hn
        omega
      have hdiv : n / 10 < 10 ^ fuel := by
        have h10 : 10 ^ (fuel + 1) = 10 * 10 ^ fuel := by ring
        rw [h10] at hn
        exact Nat.div_lt_of_lt_mul hn
      obtain ⟨c, t, hct, hc⟩ := ih (n / 10) (digitChar (n % 10) :: acc) hf hdiv
      exact ⟨c, t, by simp [natCharsAux, hlt, hct], hc⟩

theorem natChars_head (n : ℕ) : ∃ c t, natChars n = c :: t ∧ isDig c = true := by
  have hn : n < 10 ^ (n + 1) := by
    calc n < 10 ^ n := Nat.lt_pow_self (by norm_num) n
    _ ≤ 10 ^ (n + 1) := Nat.pow_le_pow_right (by norm_num) (by omega)
  exact natCharsAux_head (n + 1) n [] (by omega) hn

theorem isWS_false_of_isDig (c : Char) (h : isDig c = true) : isWS c = false := by
  cases hws : isWS c with
  | false => rfl
  | true =>
    exfalso
    unfold isWS at hws
    simp only [Bool.or_eq_true, decide_eq_true_eq] at hws
    rcases hws with ((((hc | hc) | hc) | hc) | hc) | hc <;>
      (subst hc; exact absurd h (by decide))

theorem pyStrip_cons_of_not_ws (c : Char) (l : List Char) (h : isWS c = false) :
    pyStrip (c :: l) = c :: dropTrailingWS l := by
  unfold pyStrip
  rw [List.dropWhile_cons]
  rw [h]
  simp only [Bool.false_eq_true, if_false]
  simp only [dropTrailingWS, h, Bool.and_false]
  simp

theorem ratStr_benign (q : ℚ) :
    (pyStrip (ratStr q).data).isEmpty = false
    ∧ lowerStr (pyStrip (ratStr q).data) ≠ "nan".data
    ∧ lowerStr (pyStrip (ratStr q).data) ≠ "none".data := by
  obtain ⟨c, t, hct, hdig⟩ := natChars_head (q.num.natAbs / q.den)
  have hdata : (ratStr q).data =
      (if q.num < 0 then ['-'] else []) ++ natChars (q.num.natAbs / q.den)
        ++ '.' :: natChars (q.num.natAbs % q.den * 10 ^ 6 / q.den) := rfl
  by_cases hq : q.num < 0
  · rw [hdata, if_pos hq]
    have hshape : (['-'] ++ natChars (q.num.natAbs / q.den)
        ++ '.' :: natChars (q.num.natAbs % q.den * 10 ^ 6 / q.den))
        = '-' :: (natChars (q.num.natAbs / q.den)
          ++ '.' :: natChars (q.num.natAbs % q.den * 10 ^ 6 / q.den)) := by simp
    rw [hshape, pyStrip_cons_of_not_ws '-' _ (by decide)]
    refine ⟨rfl, ?_, ?_⟩ <;>
      (simp only [lowerStr, List.map_cons]
       intro he
       injection he with h1 _
       exact absurd h1 (by decide))
  · rw [hdata, if_neg hq]
    have hshape : (([] : List Char) ++ natChars (q.num.natAbs / q.den)
        ++ '.' :: natChars (q.num.natAbs % q.den * 10 ^ 6 / q.den))
        = c :: (t ++ '.' :: natChars (q.num.natAbs % q.den * 10 ^ 6 / q.den)) := by
      rw [List.nil_append, hct]
      simp
    rw [hshape, pyStrip_cons_of_not_ws c _ (isWS_false_of_isDig c hdig)]
    have hlc : lowerChar c = c := by
      unfold isDig at hdig
      rw [Bool.and_eq_true] at hdig
      have h9 : c ≤ '9' := of_decide_eq_true hdig.2
      unfold lowerChar
      have hcond : ¬(('A' ≤ c && c ≤ 'Z') = true) := by
        rw [Bool.and_eq_true]
        rintro ⟨hA, -⟩
        have hA2 : 'A' ≤ c := of_decide_eq_true hA
        exact absurd (le_trans hA2 h9) (by decide)
      rw [if_neg hcond]
    have hcn : c ≠ 'n' := by
      rintro rfl
      exact absurd hdig (by decide)
    refine ⟨rfl, ?_, ?_⟩ <;>
      (simp only [lowerStr, List.map_cons, hlc]
       intro he
       injection he with h1 _
       exact hcn h1)

theorem format_value_pnum (q : ℚ) : format_value (.pnum q) = ratStr q := by
  have hb := ratStr_benign q
  exact format_value_keeps (.pnum q) rfl hb.1 hb.2.1 hb.2.2

theorem pyStrip_all_ws (l : List Char) (h : ∀ c ∈ l, isWS c = true) : pyStrip l = [] := by
  unfold pyStrip
  have hdrop : l.dropWhile isWS = [] := List.dropWhile_eq_nil_iff.mpr h
  rw [hdrop]
  rfl

/-- C8: format_value is total (a Lean function defined on every PVal), sends
every missing value (None/NaN), every string that is blank or whitespace-only
and every string whose stripped lower-cased form is the token nan or none to
the sentinel 无, and sends every other value to its str() form unchanged
(original surrounding whitespace included). -/
theorem format_value_spec :
    (∀ v : PVal, isna v = true → format_value v = "无")
    ∧ (∀ s : String, (∀ c ∈ s.data, isWS c = true) → format_value (.pstr s) = "无")
    ∧ (∀ s : String, lowerStr (pyStrip s.data) = "nan".data
        ∨ lowerStr (pyStrip s.data) = "none".data → format_value (.pstr s) = "无")
    ∧ (∀ v : PVal, isna v = false → (pyStrip (pyStr v).data).isEmpty = false →
        lowerStr (pyStrip (pyStr v).data) ≠ "nan".data →
        lowerStr (pyStrip (pyStr v).data) ≠ "none".data →
        format_value v = pyStr v)
    ∧ format_value .pnan = "无" := by
  refine ⟨format_value_of_isna, ?_, ?_, format_value_keeps, by decide⟩
  · intro s hws
    apply format_value_sentinel (.pstr s) rfl
    left
    rw [show pyStr (.pstr s) = s from rfl, pyStrip_all_ws s.data hws]
    rfl
  · intro s hs
    exact format_value_sentinel _ rfl (Or.inr hs)

/-- Witness for the C8 theorem at a NaN value, a whitespace-only string, the
token " NaN " and an ordinary string. -/
theorem format_value_spec_witness :
    format_value .pnan = "无"
    ∧ format_value (.pstr "  ") = "无"
    ∧ format_value (.pstr " NaN ") = "无"
    ∧ format_value (.pstr " x ") = " x " := by
  refine ⟨format_value_spec.1 .pnan rfl, ?_, ?_, ?_⟩
  · exact format_value_spec.2.1 "  " (by decide)
  · exact format_value_spec.2.2.1 " NaN " (Or.inl (by decide))
  · exact format_value_spec.2.2.2.1 (.pstr " x ") rfl (by decide) (by decide) (by decide)

/-- C9: format_value is idempotent: re-formatting its own output (as a string
value) changes nothing. -/
theorem format_value_idempotent (v : PVal) :
    format_value (.pstr (format_value v)) = format_value v := by
  by_cases h1 : isna v = true
  · rw [format_value_of_isna v h1]
    decide
  · have h1f : isna v = false := by
      cases hv : isna v with
      | false => rfl
      | true => exact absurd hv h1
    by_cases h2 : (pyStrip (pyStr v).data).isEmpty = true
      ∨ lowerStr (pyStrip (pyStr v).data) = "nan".data
      ∨ lowerStr (pyStrip (pyStr v).data) = "none".data
    · rw [format_value_sentinel v h1f h2]
      decide
    · push_neg at h2
      obtain ⟨hn1, hn2, hn3⟩ := h2
      have hn1f : (pyStrip (pyStr v).data).isEmpty = false := by
        cases he : (pyStrip (pyStr v).data).isEmpty with
        | false => rfl
        | true => exact absurd he hn1
      rw [format_value_keeps v h1f hn1f hn2 hn3]
      exact format_value_keeps (.pstr (pyStr v)) rfl hn1f hn2 hn3

theorem insertBySortKey_length (x : GpaEntry) (l : List GpaEntry) :
    (insertBySortKey x l).length = l.length + 1 := by
  induction l with
  | nil => rfl
  | cons y ys ih =>
    simp only [insertBySortKey]
    split
    · simp [ih]
    · simp

theorem stableSortBySortKey_length (l : List GpaEntry) :
    (stableSortBySortKey l).length = l.length := by
  induction l with
  | nil => rfl
  | cons x xs ih => simp [stableSortBySortKey, insertBySortKey_length, ih]

theorem mem_insertBySortKey (a x : GpaEntry) (l : List GpaEntry) :
    a ∈ insertBySortKey x l ↔ a = x ∨ a ∈ l := by
  induction l with
  | nil => simp [insertBySortKey]
  | cons y ys ih =>
    simp only [insertBySortKey]
    split
    · simp only [List.mem_cons, ih]
      tauto
    · simp [List.mem_cons]

theorem insertBySortKey_pairwise (x : GpaEntry) (l : List GpaEntry)
    (h : List.Pairwise (fun a b => a.sort_key ≤ b.sort_key) l) :
    List.Pairwise (fun a b => a.sort_key ≤ b.sort_key) (insertBySortKey x l) := by
  induction l with
  | nil => simp [insertBySortKey]
  | cons y ys ih =>
    rw [List.pairwise_cons] at h
    obtain ⟨hy, hys⟩ := h
    simp only [insertBySortKey]
    split
    · rename_i hlt
      rw [List.pairwise_cons]
      constructor
      · intro z hz
        rcases (mem_insertBySortKey z x ys).mp hz with rfl | hz2
        · exact le_of_lt hlt
        · exact hy z hz2
      · exact ih hys
    · rename_i hnlt
      rw [List.pairwise_cons]
      constructor
      · intro z hz
        rcases List.mem_cons.mp hz with rfl | hz2
        · omega
        · exact le_trans (by omega) (hy z hz2)
      · exact List.pairwise_cons.mpr ⟨hy, hys⟩

theorem stableSortBySortKey_pairwise (l : List GpaEntry) :
    List.Pairwise (fun a b => a.sort_key ≤ b.sort_key) (stableSortBySortKey l) := by
  induction l with
  | nil => simp [stableSortBySortKey]
  | cons x xs ih => exact insertBySortKey_pairwise x _ ih

theorem insertBySortKey_filter (x : GpaEntry) (l : List GpaEntry) (n : ℕ) :
    (insertBySortKey x l).filter (fun e => e.sort_key == n)
      = if x.sort_key = n then x :: l.filter (fun e => e.sort_key == n)
        else l.filter (fun e => e.sort_key == n) := by
  induction l with
  | nil =>
    rw [show insertBySortKey x [] = [x] from rfl, List.filter_cons]
    by_cases hx : x.sort_key = n
    · simp [hx]
    · simp [hx]
  | cons y ys ih =>
    simp only [insertBySortKey]
    split
    · rename_i hlt
      by_cases hxn : x.sort_key = n
      · have hyn : y.sort_key ≠ n := by omega
        simp [List.filter_cons, ih, hxn, hyn]
      · simp [List.filter_cons, ih, hxn]
    · by_cases hxn : x.sort_key = n
      · simp [List.filter_cons, hxn]
      · simp [List.filter_cons, hxn]

theorem stableSortBySortKey_filter (l : List GpaEntry) (n : ℕ) :
    (stableSortBySortKey l).filter (fun e => e.sort_key == n)
      = l.filter (fun e => e.sort_key == n) := by
  induction l with
  | nil => rfl
  | cons x xs ih =>
    simp only [stableSortBySortKey]
    rw [insertBySortKey_filter, ih, List.filter_cons]
    by_cases hxn : x.sort_key = n
    · simp [hxn]
    · simp [hxn]

theorem extract_semester_gpa_eq_sort_scan (r : Record) :
    extract_semester_gpa_data r = stableSortBySortKey (gpaScan r) := by
  unfold extract_semester_gpa_data
  by_cases h : (gpaScan r).isEmpty
  · have hnil : gpaScan r = [] := by
      cases hg : gpaScan r with
      | nil => rfl
      | cons a t => rw [hg] at h; exact absurd h (by simp)
    simp [h, hnil]
  · simp [h]

theorem gpaScan_length (r : Record) :
    (gpaScan r).length = r.countP (fun cv =>
      (gpa_pattern_match cv.1).isSome && !isna cv.2 && (pyFloat cv.2).isSome) := by
  induction r with
  | nil => rfl
  | cons cv tl ih =>
    rw [List.countP_cons]
    unfold gpaScan
    rw [List.filterMap_cons]
    unfold gpaScan at ih
    cases hm : gpa_pattern_match cv.1 with
    | none => simp [gpaScanEntry, hm, ih]
    | some cap =>
      cases hna : isna cv.2 with
      | true => simp [gpaScanEntry, hm, hna, ih]
      | false =>
        cases hf : pyFloat cv.2 with
        | none => simp [gpaScanEntry, hm, hna, hf, ih]
        | some x =>
          obtain ⟨k, hk⟩ := gpa_capture_sort_key_ok cv.1 cap hm
          simp [gpaScanEntry, hm, hna, hf, hk, ih]

/-- C7: for every record, semester-GPA extraction is sorted ascending by the
period order key; it is stable — the entries holding any fixed key appear in
their original column encounter order (the filter at each key equals that of
the unsorted scan); its length counts exactly the matching columns whose
values are present and float() coercible; and on the spec scenario record the
output is the two valid semesters in order 1, 3 with the blank one omitted. -/
theorem extract_semester_gpa_data_spec :
    (∀ r : Record,
      List.Pairwise (fun a b => a.sort_key ≤ b.sort_key) (extract_semester_gpa_data r)
      ∧ (∀ n : ℕ, (extract_semester_gpa_data r).filter (fun e => e.sort_key == n)
          = (gpaScan r).filter (fun e => e.sort_key == n))
      ∧ (extract_semester_gpa_data r).length = r.countP (fun cv =>
          (gpa_pattern_match cv.1).isSome && !isna cv.2 && (pyFloat cv.2).isSome))
    ∧ extract_semester_gpa_data
        [("第一学期绩点", .pnum 3.5), ("第三学期绩点", .pnum 3.8), ("第二学期绩点", .pstr "")]
      = [⟨"第一学期", 3.5, 1⟩, ⟨"第三学期", 3.8, 3⟩] := by
  constructor
  · intro r
    rw [extract_semester_gpa_eq_sort_scan]
    exact ⟨stableSortBySortKey_pairwise _,
      fun n => stableSortBySortKey_filter _ n,
      by rw [stableSortBySortKey_length, gpaScan_length]⟩
  · have hm1 : gpa_pattern_match "第一学期绩点" = some "一" := by decide
    have hm2 : gpa_pattern_match "第三学期绩点" = some "三" := by decide
    have hm3 : gpa_pattern_match "第二学期绩点" = some "二" := by decide
    have hp3 : pyFloat (.pstr "") = none := by decide
    have hk1 : get_year_sort_key "一" = .ok 1 := by decide
    have hk3 : get_year_sort_key "三" = .ok 3 := by decide
    have hs1 : "第" ++ "一" ++ "学期" = "第一学期" := by decide
    have hs3 : "第" ++ "三" ++ "学期" = "第三学期" := by decide
    rw [extract_semester_gpa_eq_sort_scan]
    simp only [gpaScan, gpaScanEntry, List.filterMap_cons, List.filterMap_nil, hm1, hm2, hm3,
      hp3, hk1, hk3, hs1, hs3, isna, pyFloat]
    simp only [stableSortBySortKey, insertBySortKey]
    norm_num

theorem normalize_value_ok (v : PVal) (mn mx : ℚ) (h : mn ≠ mx) :
    ∃ q, normalize_value v mn mx = .ok q := by
  have hden : mx - mn ≠ 0 := sub_ne_zero.mpr (Ne.symm h)
  by_cases hna : isna v = true
  · exact ⟨0, by simp [normalize_value, hna]⟩
  · have hnaf : isna v = false := by
      cases hv : isna v with
      | false => rfl
      | true => exact absurd hv hna
    cases hf : pyFloat v with
    | none => exact ⟨0, by simp [normalize_value, hnaf, hf]⟩
    | some x =>
      refine ⟨max 0 (min 100 ((x - mn) / (mx - mn) * 100)), ?_⟩
      simp only [normalize_value, hnaf, hf, Bool.false_eq_true, if_false]
      rw [if_neg hden]

theorem radarItemsGo_map_fst (cfg : String → ℚ × ℚ) (yd : List (String × PVal)) :
    ∀ (fs : List String) (items : List (String × ℚ × ℚ)),
      radarItemsGo cfg yd fs = .ok items →
      items.map (fun e => e.1) = fs.filter (fun f => (dictGet yd f).isSome) := by
  intro fs
  induction fs with
  | nil =>
    intro items h
    simp only [radarItemsGo] at h
    injection h with h
    subst h
    rfl
  | cons f fs ih =>
    intro items h
    rw [List.filter_cons]
    cases hd : dictGet yd f with
    | none =>
      simp only [radarItemsGo, hd] at h
      simp only [hd, Option.isSome_none, Bool.false_eq_true, if_false]
      exact ih items h
    | some v =>
      simp only [radarItemsGo, hd] at h
      cases hn : normalize_value v (cfg f).1 (cfg f).2 with
      | error e => simp [hn] at h
      | ok nv =>
        simp only [hn] at h
        cases hg : radarItemsGo cfg yd fs with
        | error e => simp [hg] at h
        | ok rest =>
          simp only [hg] at h
          injection h with h
          subst h
          simp only [hd, Option.isSome_some, if_true, List.map_cons]
          rw [ih rest hg]

theorem radarItemsGo_ok (cfg : String → ℚ × ℚ) (yd : List (String × PVal))
    (fs : List String) (h : ∀ f ∈ fs, (cfg f).1 ≠ (cfg f).2) :
    ∃ items, radarItemsGo cfg yd fs = .ok items := by
  induction fs with
  | nil => exact ⟨[], rfl⟩
  | cons f fs ih =>
    obtain ⟨rest, hrest⟩ := ih (fun g hg => h g (by simp [hg]))
    cases hd : dictGet yd f with
    | none => exact ⟨rest, by simp only [radarItemsGo, hd]; exact hrest⟩
    | some v =>
      obtain ⟨nv, hnv⟩ := normalize_value_ok v (cfg f).1 (cfg f).2 (h f (by simp))
      exact ⟨(f, nv, get_display_value v) :: rest, by
        simp only [radarItemsGo, hd, hnv, hrest]⟩

theorem comp_valid_isSome (yd : List (String × PVal))
    (h : comprehensive_score_invalid yd = false) :
    (dictGet yd "综测总分").isSome = true := by
  unfold comprehensive_score_invalid at h
  cases hd : dictGet yd "综测总分" with
  | none => rw [hd] at h; exact absurd h (by simp)
  | some v => rfl

/-- C10: whenever create_radar_chart returns an actual series for a year
bundle, the series is nonempty, its field names are exactly the canonical
order 德育, 智育, 体测成绩, 附加分, 综测总分 restricted to the fields present
in the bundle, and 综测总分 is always among them (the gate guarantees the
composite key is present, so the empty-items early return never fires after
the gate). -/
theorem create_radar_chart_nonNone_spec (cfg : String → ℚ × ℚ)
    (yd : List (String × PVal)) (items : List (String × ℚ × ℚ))
    (h : create_radar_chart cfg yd = .ok (some items)) :
    items ≠ []
    ∧ items.map (fun e => e.1) = radar_fields.filter (fun f => (dictGet yd f).isSome)
    ∧ "综测总分" ∈ items.map (fun e => e.1) := by
  unfold create_radar_chart at h
  by_cases hg : comprehensive_score_invalid yd = true
  · rw [if_pos hg] at h
    exact absurd h (by simp)
  · have hgf : comprehensive_score_invalid yd = false := by
      cases hv : comprehensive_score_invalid yd with
      | false => rfl
      | true => exact absurd hv hg
    rw [hgf] at h
    simp only [Bool.false_eq_true, if_false] at h
    cases hgo : radarItemsGo cfg yd radar_fields with
    | error e => simp [hgo] at h
    | ok its =>
      simp only [hgo] at h
      cases hemp : its.isEmpty with
      | true => simp [hemp] at h
      | false =>
        simp only [hemp, Bool.false_eq_true, if_false] at h
        injection h with h
        injection h with h
        subst h
        have hmap := radarItemsGo_map_fst cfg yd radar_fields its hgo
        refine ⟨?_, hmap, ?_⟩
        · intro hnil
          rw [hnil] at hemp
          exact absurd hemp (by simp)
        · rw [hmap]
          exact List.mem_filter.mpr ⟨by decide, comp_valid_isSome yd hgf⟩

/-- Witness for the C10 theorem on a bundle holding 德育 and a valid
综测总分 under the default configuration. -/
theorem create_radar_chart_nonNone_spec_witness :
    create_radar_chart user_normalization_params
        [("德育", .pnum 20), ("综测总分", .pnum 110)]
      = .ok (some [("德育", 100, 20), ("综测总分", 100, 110)])
    ∧ ([("德育", (100 : ℚ), (20 : ℚ)), ("综测总分", 100, 110)] ≠ []
      ∧ [(("德育" : String), (100 : ℚ), (20 : ℚ)), ("综测总分", 100, 110)].map (fun e => e.1)
          = radar_fields.filter (fun f =>
              (dictGet [("德育", PVal.pnum 20), ("综测总分", PVal.pnum 110)] f).isSome)
      ∧ "综测总分" ∈ [(("德育" : String), (100 : ℚ), (20 : ℚ)), ("综测总分", 100, 110)].map
          (fun e => e.1)) := by
  have hnv1 : normalize_value (.pnum 20) 12 15 = .ok 100 := by
    rw [normalize_value_pnum 12 15 20 (by norm_num)]
    norm_num [min_def, max_def]
  have hnv2 : normalize_value (.pnum 110) 0 110 = .ok 100 := by
    rw [normalize_value_pnum 0 110 110 (by norm_num)]
    norm_num [min_def, max_def]
  have hcreate : create_radar_chart user_normalization_params
      [("德育", .pnum 20), ("综测总分", .pnum 110)]
      = .ok (some [("德育", 100, 20), ("综测总分", 100, 110)]) := by
    have hg : comprehensive_score_invalid [("德育", .pnum 20), ("综测总分", .pnum 110)] = false := by
      decide
    have hd1 : dictGet [(("德育" : String), PVal.pnum 20), ("综测总分", PVal.pnum 110)] "德育"
        = some (.pnum 20) := by decide
    have hd2 : dictGet [(("德育" : String), PVal.pnum 20), ("综测总分", PVal.pnum 110)] "智育"
        = none := by decide
    have hd3 : dictGet [(("德育" : String), PVal.pnum 20), ("综测总分", PVal.pnum 110)] "体测成绩"
        = none := by decide
    have hd4 : dictGet [(("德育" : String), PVal.pnum 20), ("综测总分", PVal.pnum 110)] "附加分"
        = none := by decide
    have hd5 : dictGet [(("德育" : String), PVal.pnum 20), ("综测总分", PVal.pnum 110)] "综测总分"
        = some (.pnum 110) := by decide
    simp only [create_radar_chart, hg, Bool.false_eq_true, if_false, radar_fields,
      radarItemsGo, hd1, hd2, hd3, hd4, hd5,
      show user_normalization_params "德育" = (12, 15) from rfl,
      show user_normalization_params "综测总分" = (0, 110) from rfl,
      hnv1, hnv2, get_display_value, isna, pyFloat]
    norm_num
  exact ⟨hcreate, create_radar_chart_nonNone_spec user_normalization_params
    [("德育", .pnum 20), ("综测总分", .pnum 110)]
    [("德育", 100, 20), ("综测总分", 100, 110)] hcreate⟩

/-- C4: under a nondegenerate configuration (the defaults are), the radar
assembler returns nothing exactly when the year's 综测总分 is absent, NaN or
not float() coercible — even when the other four fields are valid — and
otherwise produces the series for exactly the fields present in the bundle. -/
theorem create_radar_chart_gate_spec (cfg : String → ℚ × ℚ)
    (yd : List (String × PVal))
    (h : ∀ f ∈ radar_fields, (cfg f).1 ≠ (cfg f).2) :
    (create_radar_chart cfg yd = .ok none ↔ comprehensive_score_invalid yd = true)
    ∧ (comprehensive_score_invalid yd = false →
        ∃ items, create_radar_chart cfg yd = .ok (some items)
          ∧ items.map (fun e => e.1)
              = radar_fields.filter (fun f => (dictGet yd f).isSome)) := by
  have hmain : comprehensive_score_invalid yd = false →
      ∃ items, create_radar_chart cfg yd = .ok (some items)
        ∧ items.map (fun e => e.1) = radar_fields.filter (fun f => (dictGet yd f).isSome) := by
    intro hgf
    obtain ⟨its, hits⟩ := radarItemsGo_ok cfg yd radar_fields h
    have hmap := radarItemsGo_map_fst cfg yd radar_fields its hits
    have hmem : "综测总分" ∈ radar_fields.filter (fun f => (dictGet yd f).isSome) :=
      List.mem_filter.mpr ⟨by decide, comp_valid_isSome yd hgf⟩
    have hne : its ≠ [] := by
      intro hnil
      rw [hnil] at hmap
      rw [← hmap] at hmem
      exact absurd hmem (by simp)
    have hempf : its.isEmpty = false := by
      cases hi : its with
      | nil => exact absurd hi hne
      | cons a t => rfl
    refine ⟨its, ?_, hmap⟩
    simp only [create_radar_chart, hgf, Bool.false_eq_true, if_false, hits, hempf]
  constructor
  · constructor
    · intro hnone
      by_cases hg : comprehensive_score_invalid yd = true
      · exact hg
      · have hgf : comprehensive_score_invalid yd = false := by
          cases hv : comprehensive_score_invalid yd with
          | false => rfl
          | true => exact absurd hv hg
        obtain ⟨its, hits, -⟩ := hmain hgf
        rw [hits] at hnone
        exact absurd hnone (by simp)
    · intro hg
      unfold create_radar_chart
      rw [hg]
      simp
  · exact hmain

/-- Witness for the C4 theorem on the spec scenario-2 bundle: four valid
scores but 综测总分 = "无" yields no radar output under the default
configuration. -/
theorem create_radar_chart_gate_spec_witness :
    (∀ f ∈ radar_fields,
      (user_normalization_params f).1 ≠ (user_normalization_params f).2)
    ∧ create_radar_chart user_normalization_params
        [("德育", .pnum 14), ("智育", .pnum 84), ("体测成绩", .pnum 100),
          ("附加分", .pnum 2), ("综测总分", .pstr "无")]
      = .ok none := by
  have hnd : ∀ f ∈ radar_fields,
      (user_normalization_params f).1 ≠ (user_normalization_params f).2 := by decide
  refine ⟨hnd, ?_⟩
  exact (create_radar_chart_gate_spec user_normalization_params
    [("德育", .pnum 14), ("智育", .pnum 84), ("体测成绩", .pnum 100),
      ("附加分", .pnum 2), ("综测总分", .pstr "无")] hnd).1.mpr (by decide)

/-- Lookup of one year's field in the nested year dict built by
extract_academic_year_data. -/
def lookupYearField (d : List (String × List (String × PVal))) (y f : String) : Option PVal :=
  (dictGet d y).bind (fun yd => dictGet yd f)

theorem dictGet_insert_self (k : String) (v : α) (d : List (String × α)) :
    dictGet (dictInsert k v d) k = some v := by
  induction d with
  | nil => simp [dictInsert, dictGet]
  | cons kv rest ih =>
    simp only [dictInsert]
    split
    · simp [dictGet]
    · rename_i hne
      simp only [dictGet]
      rw [if_neg (by
        intro hkk
        exact hne (by rw [hkk]))]
      exact ih

theorem dictGet_insert_ne (k k2 : String) (v : α) (d : List (String × α)) (h : k2 ≠ k) :
    dictGet (dictInsert k2 v d) k = dictGet d k := by
  induction d with
  | nil => simp [dictInsert, dictGet, h]
  | cons kv rest ih =>
    simp only [dictInsert]
    split
    · rename_i heq
      simp only [dictGet]
      rw [if_neg h, if_neg (by rw [heq]; exact h)]
    · simp only [dictGet]
      by_cases hkk : kv.1 = k
      · rw [if_pos hkk, if_pos hkk]
      · rw [if_neg hkk, if_neg hkk]
        exact ih

theorem setYearField_self (d : List (String × List (String × PVal))) (y f : String) (v : PVal) :
    lookupYearField (setYearField d y f v) y f = some v := by
  simp only [lookupYearField, setYearField]
  rw [dictGet_insert_self]
  simp only [Option.some_bind]
  rw [dictGet_insert_self]

theorem setYearField_preserves (d : List (String × List (String × PVal)))
    (y f y2 f2 : String) (v : PVal) (h : (lookupYearField d y f).isSome = true) :
    (lookupYearField (setYearField d y2 f2 v) y f).isSome = true := by
  simp only [lookupYearField] at h
  simp only [lookupYearField, setYearField]
  by_cases hy : y2 = y
  · subst hy
    rw [dictGet_insert_self]
    cases hd : dictGet d y2 with
    | none => rw [hd] at h; simp at h
    | some yd =>
      rw [hd] at h
      simp only [Option.some_bind] at h ⊢
      rw [show ((some yd).getD [] : List (String × PVal)) = yd from rfl]
      by_cases hf : f2 = f
      · subst hf; rw [dictGet_insert_self]; rfl
      · rw [dictGet_insert_ne f f2 v yd hf]
        exact h
  · rw [dictGet_insert_ne y y2 _ d hy]
    exact h

theorem inner_fold_preserves (cv : String × PVal) (pats : List String)
    (acc : List (String × List (String × PVal))) (y f : String)
    (h : (lookupYearField acc y f).isSome = true) :
    (lookupYearField (pats.foldl (fun acc2 g =>
      match year_field_match g cv.1 with
      | none => acc2
      | some y2 => setYearField acc2 y2 g cv.2) acc) y f).isSome = true := by
  induction pats generalizing acc with
  | nil => exact h
  | cons g gs ih =>
    simp only [List.foldl_cons]
    cases hm : year_field_match g cv.1 with
    | none => exact ih _ h
    | some y2 => exact ih _ (setYearField_preserves acc y f y2 g cv.2 h)

theorem inner_fold_establishes (cv : String × PVal) (pats : List String)
    (acc : List (String × List (String × PVal))) (y fname : String)
    (hmem : fname ∈ pats) (hm : year_field_match fname cv.1 = some y) :
    (lookupYearField (pats.foldl (fun acc2 g =>
      match year_field_match g cv.1 with
      | none => acc2
      | some y2 => setYearField acc2 y2 g cv.2) acc) y fname).isSome = true := by
  induction pats generalizing acc with
  | nil => exact absurd hmem (by simp)
  | cons g gs ih =>
    simp only [List.foldl_cons]
    by_cases hg : g = fname
    · subst hg
      rw [hm]
      by_cases hgs : g ∈ gs
      · exact ih _ hgs
      · apply inner_fold_preserves
        rw [setYearField_self]
        rfl
    · have hmem2 : fname ∈ gs := by
        rcases List.mem_cons.mp hmem with rfl | h2
        · exact absurd rfl hg
        · exact h2
      cases hm2 : year_field_match g cv.1 with
      | none => exact ih _ hmem2
      | some y2 => exact ih _ hmem2

theorem outer_fold_preserves (cols : Record)
    (acc : List (String × List (String × PVal))) (y f : String)
    (h : (lookupYearField acc y f).isSome = true) :
    (lookupYearField (cols.foldl (fun acc cv =>
      year_patterns.foldl (fun acc2 g =>
        match year_field_match g cv.1 with
        | none => acc2
        | some y2 => setYearField acc2 y2 g cv.2) acc) acc) y f).isSome = true := by
  induction cols generalizing acc with
  | nil => exact h
  | cons cv tl ih =>
    simp only [List.foldl_cons]
    exact ih _ (inner_fold_preserves cv year_patterns acc y f h)

/-- C5 counterexample: the claim says a column whose value fails numeric
coercion does not appear in the academic-year extraction output; in the code
extract_academic_year_data stores the raw value with no coercion at all, so
the non-coercible value "abc" of 第一学年德育 does appear in the output. -/
theorem extract_academic_year_keeps_uncoercible :
    extract_academic_year_data [("第一学年德育", .pstr "abc")]
      = [("一", [("德育", .pstr "abc")])]
    ∧ pyFloat (.pstr "abc") = none := by decide

/-- C5 amended: the silent-skip policy holds for the semester-GPA extractor —
a matching column with a missing or non-coercible value contributes nothing
and leaves the rest of the extraction unchanged — while the academic-year
extractor instead stores the raw value unconditionally (the year/field entry
is present whatever the value), and a non-coercible value is neutralized
downstream by the radar assembler to normalized 0 and display 0 rather than
being skipped (综测总分 excepted: its invalidity gates the whole year,
C4/C10). -/
theorem extractor_invalid_value_policy :
    (∀ (r1 r2 : Record) (c : String) (v : PVal),
      (gpa_pattern_match c).isSome = true → isna v = true ∨ pyFloat v = none →
      extract_semester_gpa_data (r1 ++ (c, v) :: r2) = extract_semester_gpa_data (r1 ++ r2))
    ∧ (∀ (r1 r2 : Record) (c y : String) (v : PVal), ∀ fname ∈ radar_fields,
        year_field_match fname c = some y →
        lookupYearField (extract_academic_year_data (r1 ++ (c, v) :: r2)) y fname ≠ none)
    ∧ (∀ (v : PVal) (mn mx : ℚ), isna v = false → pyFloat v = none →
        normalize_value v mn mx = .ok 0 ∧ get_display_value v = 0) := by
  refine ⟨?_, ?_, ?_⟩
  · intro r1 r2 c v hm hv
    rw [extract_semester_gpa_eq_sort_scan, extract_semester_gpa_eq_sort_scan]
    have hbody : gpaScanEntry (c, v) = none := by
      unfold gpaScanEntry
      cases hmc : gpa_pattern_match c with
      | none => simp [hmc]
      | some cap =>
        rcases hv with hv | hv
        · simp [hmc, hv]
        · simp only [hmc, hv]
          split <;> rfl
    have hscan : gpaScan (r1 ++ (c, v) :: r2) = gpaScan (r1 ++ r2) := by
      unfold gpaScan
      rw [List.filterMap_append, List.filterMap_append]
      congr 1
      rw [List.filterMap_cons, hbody]
    rw [hscan]
  · intro r1 r2 c y v fname hmem hm
    have hmemyp : fname ∈ year_patterns := by
      have hall : ∀ x ∈ radar_fields, x ∈ year_patterns := by decide
      exact hall fname hmem
    unfold extract_academic_year_data
    rw [List.foldl_append]
    simp only [List.foldl_cons]
    have hsome := outer_fold_preserves r2 _ y fname
      (inner_fold_establishes (c, v) year_patterns
        (r1.foldl (fun acc cv =>
          year_patterns.foldl (fun acc2 g =>
            match year_field_match g cv.1 with
            | none => acc2
            | some y2 => setYearField acc2 y2 g cv.2) acc) []) y fname hmemyp hm)
    intro hnone
    rw [hnone] at hsome
    exact absurd hsome (by simp)
  · intro v mn mx hna hf
    constructor
    · simp [normalize_value, hna, hf]
    · simp [get_display_value, hna, hf]

/-- Witness for the C5 amended theorem: a blank second-semester GPA is
skipped; the non-coercible 德育 value is stored; normalize/display neutralize
it to 0. -/
theorem extractor_invalid_value_policy_witness :
    ((gpa_pattern_match "第二学期绩点").isSome = true
      ∧ pyFloat (.pstr "") = none
      ∧ extract_semester_gpa_data [("第一学期绩点", .pnum 3.5), ("第二学期绩点", .pstr "")]
        = extract_semester_gpa_data [("第一学期绩点", .pnum 3.5)])
    ∧ (year_field_match "德育" "第一学年德育" = some "一"
      ∧ lookupYearField (extract_academic_year_data [("第一学年德育", .pstr "abc")])
          "一" "德育" ≠ none)
    ∧ (normalize_value (.pstr "abc") 0 100 = .ok 0
      ∧ get_display_value (.pstr "abc") = 0) := by
  refine ⟨⟨by decide, by decide, ?_⟩, ⟨by decide, ?_⟩, ?_⟩
  · exact extractor_invalid_value_policy.1 [("第一学期绩点", .pnum 3.5)] []
      "第二学期绩点" (.pstr "") (by decide) (Or.inr (by decide))
  · exact extractor_invalid_value_policy.2.1 [] [] "第一学年德育" "一" (.pstr "abc")
      "德育" (by decide) (by decide)
  · exact extractor_invalid_value_policy.2.2 (.pstr "abc") 0 100 rfl (by decide)

end StudentsApp
